import Mathlib

/-!
Verification of the pynix shell's pipeline construction and execution engine.

The definitions below are a shallow embedding of the Python sources:
  app/parsing/tokenizer.py, app/parsing/redirections.py, app/parsing/pipeline.py,
  app/core/shell/pipeline.py, app/core/shell/execution.py, app/core/runner.py,
  app/types.py.
Side-effecting operations (printing, pipe creation, file opens/closes, spawns,
thread starts, joins, waits) are recorded in an explicit event trace; results of
external processes and builtin bodies are supplied by an environment record,
since they are outside the engine itself.
-/

namespace Pynix

/-- The single-quote character (written via its code point to keep the file
free of quote-escaping in literals). -/
def squote : Char := Char.ofNat 39

/-- The double-quote character. -/
def dquote : Char := Char.ofNat 34

/-- File open mode for redirect targets: Python mode string 'a' (append) or
'w' (truncate/write). -/
inductive Mode
  | a
  | w
deriving DecidableEq, Repr

/-- A redirect spec: (path, mode), as produced by parse_redirection. -/
abbrev Redir := String × Mode

/-! ## Tokenizer (app/parsing/tokenizer.py) -/

/-- Quote-context of the shlex lexer: outside quotes, inside single quotes,
or inside double quotes. -/
inductive QuoteCtx
  | none
  | single
  | double
deriving DecidableEq, Repr

/-- Characters the shlex lexer treats as whitespace (shlex.whitespace). -/
def shlex_whitespace (c : Char) : Bool :=
  c = ' ' || c = '\t' || c = '\r' || c = '\n'

/-- Modelled from the Python standard library: the scanning loop of
shlex.split in POSIX mode (whitespace_split on, comment characters off),
which is what tokenize_command calls.  The accumulator is the token under
construction (Option.none when no token has started; an empty started token
arises from quotes and is emitted, matching POSIX shlex).  An unterminated
quote or a trailing escape character yields an error, mirroring the
ValueError that shlex raises. -/
def shlex_go : List Char → QuoteCtx → Option (List Char) → Except Unit (List String)
  | [], .none, .none => .ok []
  | [], .none, some cur => .ok [String.mk cur]
  | [], .single, _ => .error ()
  | [], .double, _ => .error ()
  | c :: rest, .none, acc =>
    if shlex_whitespace c then
      match acc with
      | .none => shlex_go rest .none .none
      | some cur => (shlex_go rest .none .none).map (fun ts => String.mk cur :: ts)
    else if c = '\\' then
      match rest with
      | [] => .error ()
      | e :: rest2 => shlex_go rest2 .none (some (acc.getD [] ++ [e]))
    else if c = squote then
      shlex_go rest .single (some (acc.getD []))
    else if c = dquote then
      shlex_go rest .double (some (acc.getD []))
    else
      shlex_go rest .none (some (acc.getD [] ++ [c]))
  | c :: rest, .single, acc =>
    if c = squote then
      shlex_go rest .none acc
    else
      shlex_go rest .single (some (acc.getD [] ++ [c]))
  | c :: rest, .double, acc =>
    if c = dquote then
      shlex_go rest .none acc
    else if c = '\\' then
      match rest with
      | [] => .error ()
      | e :: rest2 =>
        if e = dquote || e = '\\' then
          shlex_go rest2 .double (some (acc.getD [] ++ [e]))
        else
          shlex_go rest2 .double (some (acc.getD [] ++ [c, e]))
    else
      shlex_go rest .double (some (acc.getD [] ++ [c]))

/-- Modelled from the Python standard library: shlex.split (POSIX mode). -/
def shlex_split (s : String) : Except Unit (List String) :=
  shlex_go s.data .none .none

/-- tokenize_command: shlex.split, falling back to naive whitespace
splitting (Python str.split) when shlex raises ValueError. -/
def tokenize_command (command : String) : List String :=
  match shlex_split command with
  | .ok ts => ts
  | .error _ => (command.split Char.isWhitespace).filter (fun t => t ≠ "")

/-- update_quote_state: toggle single/double quote tracking state on a
quote character that is not inside the other kind of quote. -/
def update_quote_state (char : Char) (in_single_quote in_double_quote : Bool) :
    Bool × Bool :=
  if char = squote && !in_double_quote then (!in_single_quote, in_double_quote)
  else if char = dquote && !in_single_quote then (in_single_quote, !in_double_quote)
  else (in_single_quote, in_double_quote)

/-- Folding update_quote_state over a character sequence from a given
starting state (the scanners in tokenizer.py and execution.py do exactly
this scan). -/
def fold_quote_state (cs : List Char) (init : Bool × Bool) : Bool × Bool :=
  cs.foldl (fun st c => update_quote_state c st.1 st.2) init

/-- Helper for split_by_pipes: the loop body, carrying the current group in
order. -/
def split_by_pipes_go : List String → List String → List (List String)
  | [], current => if current.isEmpty then [] else [current]
  | t :: rest, current =>
    if t = "|" then
      if current.isEmpty then split_by_pipes_go rest []
      else current :: split_by_pipes_go rest []
    else
      split_by_pipes_go rest (current ++ [t])

/-- split_by_pipes: split a token list on the literal token "|", dropping
empty groups. -/
def split_by_pipes (tokens : List String) : List (List String) :=
  split_by_pipes_go tokens []

/-! ## Redirection resolver (app/parsing/redirections.py) -/

/-- is_redirect_operator: membership in the six recognized operators. -/
def is_redirect_operator (token : String) : Bool :=
  token = ">" || token = "1>" || token = ">>" || token = "1>>" ||
  token = "2>" || token = "2>>"

/-- Python str.endswith(">>"), on the character list (kernel-reducible
form of String.endsWith). -/
def ends_with_append_arrow (s : String) : Bool :=
  s.data.reverse.take 2 = ['>', '>']

/-- Python str.startswith("2"), on the character list (kernel-reducible
form of String.startsWith). -/
def starts_with_two (s : String) : Bool :=
  s.data.head? = some '2'

/-- get_redirect_mode: append for operators ending in a double arrow,
truncate otherwise. -/
def get_redirect_mode (operator : String) : Mode :=
  if ends_with_append_arrow operator then .a else .w

/-- add_redirect: route the (filename, mode) pair to the stderr list when
the operator starts with the character 2, else to the stdout list. -/
def add_redirect (operator filename : String)
    (stdout_redirs stderr_redirs : List Redir) : List Redir × List Redir :=
  if starts_with_two operator then
    (stdout_redirs, (filename, get_redirect_mode operator) :: stderr_redirs)
  else
    ((filename, get_redirect_mode operator) :: stdout_redirs, stderr_redirs)

/-- parse_redirection: scan the word list; a redirect operator consumes the
following word as target path (a trailing dangling operator is dropped);
all other words are kept in order as the cleaned command. -/
def parse_redirection : List String → List String × List Redir × List Redir
  | [] => ([], [], [])
  | tok :: rest =>
    if is_redirect_operator tok then
      match rest with
      | [] => ([], [], [])
      | filename :: rest2 =>
        let r := parse_redirection rest2
        (r.1, add_redirect tok filename r.2.1 r.2.2)
    else
      let r := parse_redirection rest
      (tok :: r.1, r.2.1, r.2.2)

/-! ## Pipeline builder (app/parsing/pipeline.py) -/

/-- A pipeline segment: cleaned command words plus per-stream redirect
lists, as built by build_pipeline_segments. -/
structure Segment where
  parts : List String
  stdout_redirs : List Redir
  stderr_redirs : List Redir
deriving DecidableEq, Repr

/-- build_pipeline_segments: parse redirections for each token group. -/
def build_pipeline_segments (token_segments : List (List String)) : List Segment :=
  token_segments.map (fun parts =>
    let r := parse_redirection parts
    ⟨r.1, r.2.1, r.2.2⟩)

/-- parse_pipeline_into_segments: tokenize, split on pipes, parse
redirections per stage. -/
def parse_pipeline_into_segments (command : String) : List Segment :=
  build_pipeline_segments (split_by_pipes (tokenize_command command))

/-! ## Builtins (app/types.py) -/

namespace Command

/-- Value of the EXIT member of the Command enum. -/
def EXIT : String := "exit"

/-- Value of the ECHO member of the Command enum. -/
def ECHO : String := "echo"

/-- Value of the TYPE member of the Command enum. -/
def TYPE : String := "type"

/-- Value of the PWD member of the Command enum. -/
def PWD : String := "pwd"

/-- Value of the CD member of the Command enum. -/
def CD : String := "cd"

/-- Value of the HISTORY member of the Command enum. -/
def HISTORY : String := "history"

end Command

/-- is_builtin: membership among the Command enum values. -/
def is_builtin (command : String) : Bool :=
  command = Command.EXIT || command = Command.ECHO || command = Command.TYPE ||
  command = Command.PWD || command = Command.CD || command = Command.HISTORY

/-! ## Pipeline executor (app/core/shell/pipeline.py)

Side effects are recorded as an event trace.  Pipe file descriptors are
modelled as natural numbers handed out by create_pipeline_pipes; the
executor's pipe_fds bookkeeping list, the processes list (eventual return
codes of spawned externals, in spawn order) and the threads list (return
codes delivered by builtin result holders, in start order) follow the
Python code. -/

/-- An observable action of the executor. -/
inductive Event
  | createPipe (r w : Nat)
  | fopen (path : String) (mode : Mode)
  | fclose (path : String)
  | printErr (msg : String)
  | startBuiltin (cmd : String)
  | spawnExternal (cmd : String)
  | closeFd (fd : Nat)
  | joinThread (idx : Nat)
  | waitProcess (idx : Nat)
deriving DecidableEq, Repr

/-- A stream binding handed to a stage: a pipe descriptor or an opened
redirect file.  Python uses None for the inherited terminal stream, which
is Option.none here. -/
inductive IOArg
  | pipeFd (fd : Nat)
  | file (path : String) (mode : Mode)
deriving DecidableEq, Repr

/-- Results supplied by the world outside the executor: tilde expansion,
the eventual status of a spawned external command (Option.none meaning the
spawn raises FileNotFoundError), the status a builtin body stores in its
result holder, and the two single-command collaborators used by
execute_single_shell_command. -/
structure ExecEnv where
  expanduser : String → String
  spawn : String → List String → Option Int
  runBuiltin : String → List String → Int
  runSingleBuiltin : Segment → Bool × Int
  runSingleExternal : Segment → Option Int

/-- prime_earlier_redirects: open then immediately close every redirect
target except the last, with tilde expansion, for create/truncate/append
side effects. -/
def prime_earlier_redirects (env : ExecEnv) (redirs : List Redir) : List Event :=
  redirs.dropLast.flatMap (fun pm =>
    [Event.fopen (env.expanduser pm.1) pm.2, Event.fclose (env.expanduser pm.1)])

/-- get_active_redirect_spec: the last redirect spec with its path
expanded, or none. -/
def get_active_redirect_spec (env : ExecEnv) (redirs : List Redir) :
    Option (String × Mode) :=
  match redirs.getLast? with
  | .none => .none
  | some pm => some (env.expanduser pm.1, pm.2)

/-- prepare_redirect_specs: prime the earlier targets of both streams,
then return the active spec of each stream, plus the file events
performed. -/
def prepare_redirect_specs (env : ExecEnv) (stdout_redirs stderr_redirs : List Redir) :
    Option (String × Mode) × Option (String × Mode) × List Event :=
  (get_active_redirect_spec env stdout_redirs,
   get_active_redirect_spec env stderr_redirs,
   prime_earlier_redirects env stdout_redirs ++ prime_earlier_redirects env stderr_redirs)

/-- Membership test cmd in (Command.CD, Command.EXIT) from
validate_pipeline_commands. -/
def is_cd_or_exit (cmd : String) : Bool :=
  cmd = Command.CD || cmd = Command.EXIT

/-- validate_pipeline_commands, inner loop: find the first stage whose
command is cd or exit, report it and fail. -/
def validate_pipeline_go : List Segment → Bool × List Event
  | [] => (true, [])
  | seg :: rest =>
    match seg.parts.head? with
    | some cmd =>
      if is_cd_or_exit cmd then
        (false, [Event.printErr (cmd ++ ": cannot be used in pipeline")])
      else validate_pipeline_go rest
    | .none => validate_pipeline_go rest

/-- validate_pipeline_commands: cd and exit may not appear in a
multi-command pipeline. -/
def validate_pipeline_commands (pipeline : List Segment) : Bool × List Event :=
  if pipeline.length ≤ 1 then (true, [])
  else validate_pipeline_go pipeline

/-- create_pipeline_pipes: n-1 pipes for n commands; pipe i gets the
descriptor pair (2i, 2i+1), and pipe_fds lists every descriptor. -/
def create_pipeline_pipes (n_commands : Nat) : List (Nat × Nat) × List Nat :=
  let pipes := (List.range (n_commands - 1)).map (fun i => (2 * i, 2 * i + 1))
  (pipes, pipes.flatMap (fun p => [p.1, p.2]))

/-- get_stdin_for_command: terminal for the first command, else the read
end of the previous pipe. -/
def get_stdin_for_command (i : Nat) (pipes : List (Nat × Nat)) : Option IOArg :=
  if i = 0 then .none
  else some (IOArg.pipeFd (pipes.getD (i - 1) (0, 0)).1)

/-- get_stdout_for_command: the last command writes to its active redirect
file (opened here and tracked in redirect_files) or the terminal; any
other command writes to the write end of its pipe.  Returns the binding,
the file events performed, and the paths added to redirect_files. -/
def get_stdout_for_command (i n_commands : Nat) (pipes : List (Nat × Nat))
    (stdout_spec : Option (String × Mode)) :
    Option IOArg × List Event × List String :=
  if i = n_commands - 1 then
    match stdout_spec with
    | some (p, m) => (some (IOArg.file p m), [Event.fopen p m], [p])
    | .none => (.none, [], [])
  else
    (some (IOArg.pipeFd (pipes.getD i (0, 0)).2), [], [])

/-- get_stderr_for_command: only the last command may have its stderr
redirected to a file. -/
def get_stderr_for_command (i n_commands : Nat)
    (stderr_spec : Option (String × Mode)) :
    Option IOArg × List Event × List String :=
  if i = n_commands - 1 then
    match stderr_spec with
    | some (p, m) => (some (IOArg.file p m), [Event.fopen p m], [p])
    | .none => (.none, [], [])
  else
    (.none, [], [])

/-- fd_to_file_object: os.fdopen takes ownership of a pipe descriptor, so
it is dropped from the pipe_fds bookkeeping list. -/
def fd_to_file_object (fd : Option IOArg) (pipe_fds : List Nat) :
    Option IOArg × List Nat :=
  match fd with
  | some (IOArg.pipeFd n) => (some (IOArg.pipeFd n), pipe_fds.erase n)
  | x => (x, pipe_fds)

/-- Loop body of close_parent_pipe_fds: close a descriptor still tracked
in pipe_fds and drop it from the tracking list. -/
def close_fd_step (st : List Nat × List Event) (fd : Option IOArg) :
    List Nat × List Event :=
  match fd with
  | some (IOArg.pipeFd n) =>
    if n ∈ st.1 then (st.1.erase n, st.2 ++ [Event.closeFd n]) else st
  | _ => st

/-- close_parent_pipe_fds: after Popen, close the parent's copies of the
stdin and stdout pipe descriptors still in pipe_fds. -/
def close_parent_pipe_fds (stdin_arg stdout_arg : Option IOArg)
    (pipe_fds : List Nat) : List Nat × List Event :=
  close_fd_step (close_fd_step (pipe_fds, []) stdin_arg) stdout_arg

/-- Executor bookkeeping state threaded through the stage loop of
execute_pipeline. -/
structure PipeState where
  pipe_fds : List Nat
  processes : List Int
  threads : List Int
  redirect_files : List String
  events : List Event
deriving Repr

/-- Body of the stage loop of execute_pipeline for one (index, segment)
pair: resolve redirects and stream bindings, then start a builtin thread
or spawn an external process (a FileNotFoundError prints a diagnostic and
contributes no process). -/
def execute_stage (env : ExecEnv) (n : Nat) (pipes : List (Nat × Nat))
    (st : PipeState) (is : Nat × Segment) : PipeState :=
  match is.2.parts with
  | [] => st
  | cmd :: rest =>
    let i := is.1
    let args := rest.map env.expanduser
    let prep := prepare_redirect_specs env is.2.stdout_redirs is.2.stderr_redirs
    let stdin_arg := get_stdin_for_command i pipes
    let outb := get_stdout_for_command i n pipes prep.1
    let errb := get_stderr_for_command i n prep.2.1
    let st := { st with
      events := st.events ++ prep.2.2 ++ outb.2.1 ++ errb.2.1,
      redirect_files := st.redirect_files ++ outb.2.2 ++ errb.2.2 }
    if is_builtin cmd then
      let f1 := fd_to_file_object stdin_arg st.pipe_fds
      let f2 := fd_to_file_object outb.1 f1.2
      { st with
        pipe_fds := f2.2,
        threads := st.threads ++ [env.runBuiltin cmd args],
        events := st.events ++ [Event.startBuiltin cmd] }
    else
      match env.spawn cmd args with
      | some rc =>
        let cl := close_parent_pipe_fds stdin_arg outb.1 st.pipe_fds
        { st with
          pipe_fds := cl.1,
          processes := st.processes ++ [rc],
          events := st.events ++ [Event.spawnExternal cmd] ++ cl.2 }
      | .none =>
        { st with
          events := st.events ++ [Event.printErr (cmd ++ ": command not found")] }

/-- get_pipeline_returncode: the last external process's status if any
external was spawned, else the last builtin thread's status, else 0. -/
def get_pipeline_returncode (processes threads : List Int) : Int :=
  match processes.getLast? with
  | some rc => rc
  | .none =>
    match threads.getLast? with
    | some rc => rc
    | .none => 0

/-- execute_pipeline: validate, create pipes, run the stage loop, close
the leftover pipe descriptors, join builtin threads, wait on external
processes, close redirect files, and report the status computed by
get_pipeline_returncode.  Joins and waits appear in the trace in the order
the Python code performs them. -/
def execute_pipeline (env : ExecEnv) (pipeline : List Segment) : Int × List Event :=
  if pipeline.isEmpty then (0, [])
  else
    let v := validate_pipeline_commands pipeline
    if !v.1 then (1, v.2)
    else
      let n := pipeline.length
      let pp := create_pipeline_pipes n
      let st0 : PipeState :=
        { pipe_fds := pp.2, processes := [], threads := [], redirect_files := [],
          events := v.2 ++ pp.1.map (fun q => Event.createPipe q.1 q.2) }
      let st := pipeline.enum.foldl (execute_stage env n pp.1) st0
      (get_pipeline_returncode st.processes st.threads,
       st.events
         ++ st.pipe_fds.map Event.closeFd
         ++ (List.range st.threads.length).map Event.joinThread
         ++ (List.range st.processes.length).map Event.waitProcess
         ++ st.redirect_files.map Event.fclose)

/-! ## Shell dispatch (app/core/shell/execution.py) -/

/-- Result of execute_single_shell_command.  The typeError constructor
records the branch where the segment has no words at all: cmd is None,
is_builtin(None) is false, and subprocess.run([None]) raises an unhandled
TypeError. -/
inductive SingleResult
  | result (should_exit : Bool) (returncode : Int)
  | typeError
deriving DecidableEq, Repr

/-- execute_single_shell_command: builtins go to execute_builtin; an
external command not found prints a diagnostic and yields status 127. -/
def execute_single_shell_command (env : ExecEnv) (segment : Segment) :
    SingleResult × List Event :=
  match segment.parts.head? with
  | some cmd =>
    if is_builtin cmd then
      let r := env.runSingleBuiltin segment
      (.result r.1 r.2, [])
    else
      match env.runSingleExternal segment with
      | .none => (.result false 127, [Event.printErr (cmd ++ ": command not found")])
      | some rc => (.result false rc, [])
  | .none => (.typeError, [])

/-- The control path execute_shell takes after parsing its command: the
capture branch, the multi-stage pipeline branch, the single-command
branch — or the unhandled IndexError raised by the expression pipeline[0]
when the parsed pipeline is the empty list. -/
inductive ShellAction
  | indexError
  | capturedRun (pipeline : List Segment)
  | pipelineRun (pipeline : List Segment)
  | singleRun (segment : Segment)
deriving DecidableEq, Repr

/-- execute_shell, dispatch structure: parse the pipeline, branch on
capture and on the pipeline length, and otherwise index pipeline[0] (an
IndexError when the pipeline is empty). -/
def execute_shell (command : String) (capture : Bool) : ShellAction :=
  let pipeline := parse_pipeline_into_segments command
  if capture then .capturedRun pipeline
  else if 1 < pipeline.length then .pipelineRun pipeline
  else
    match pipeline with
    | [] => .indexError
    | s :: _ => .singleRun s

/-! ## Control-flow evaluator (app/core/runner.py) -/

/-- Outcome of executing one control-flow segment: a shell-exit request
(execute_segment returning True) or a return code. -/
inductive SegExec
  | exit
  | code (rc : Int)
deriving DecidableEq, Repr

/-- should_skip_segment: skip after && when the previous status is
non-zero, and after || when it is zero. -/
def should_skip_segment (operator : Option String) (last_returncode : Int) : Bool :=
  if operator = some "&&" ∧ last_returncode ≠ 0 then true
  else if operator = some "||" ∧ last_returncode = 0 then true
  else false

/-- execute_segment, control skeleton: None when the segment is skipped by
short-circuit evaluation, otherwise the segment's execution outcome
(supplied by the oracle standing for expansion plus Python or shell
execution). -/
def execute_segment (exec : String → SegExec) (operator : Option String)
    (cmd_segment : String) (last_returncode : Int) : Option SegExec :=
  if should_skip_segment operator last_returncode then .none
  else some (exec cmd_segment)

/-- The loop of run_command over (operator, segment text) pairs, with the
running status threaded through.  Returns the should-exit flag, the final
running status, and (as an observation) the texts of the segments that
were actually executed, in order. -/
def run_segments (exec : String → SegExec) :
    List (Option String × String) → Int → Bool × Int × List String
  | [], last => (false, last, [])
  | (op, seg) :: rest, last =>
    match execute_segment exec op seg last with
    | .none => run_segments exec rest last
    | some .exit => (true, last, [seg])
    | some (.code rc) =>
      let r := run_segments exec rest rc
      (r.1, r.2.1, seg :: r.2.2)

/-! ## Theorems -/

theorem update_quote_state_excl (c : Char) (s d : Bool) (h : (s && d) = false) :
    ((update_quote_state c s d).1 && (update_quote_state c s d).2) = false := by
  unfold update_quote_state
  split
  · cases s <;> cases d <;> simp_all
  · split
    · cases s <;> cases d <;> simp_all
    · exact h

theorem fold_quote_state_excl (cs : List Char) (init : Bool × Bool)
    (h : (init.1 && init.2) = false) :
    ((fold_quote_state cs init).1 && (fold_quote_state cs init).2) = false := by
  induction cs generalizing init with
  | nil => exact h
  | cons c cs ih =>
    have hstep : fold_quote_state (c :: cs) init
        = fold_quote_state cs (update_quote_state c init.1 init.2) := rfl
    rw [hstep]
    exact ih _ (update_quote_state_excl c init.1 init.2 h)

/-- C10: starting from the initial state (no quote open), folding
update_quote_state over any character sequence never reaches a state with
both the single-quote flag and the double-quote flag set: the two quote
modes are mutually exclusive in every scanner built on this step
function. -/
theorem quote_modes_mutually_exclusive (cs : List Char) :
    ((fold_quote_state cs (false, false)).1
      && (fold_quote_state cs (false, false)).2) = false :=
  fold_quote_state_excl cs (false, false) rfl

theorem parse_redirection_cons_op (tok filename : String) (rest2 : List String)
    (hop : is_redirect_operator tok = true) :
    parse_redirection (tok :: filename :: rest2) =
      ((parse_redirection rest2).1,
        add_redirect tok filename (parse_redirection rest2).2.1
          (parse_redirection rest2).2.2) := by
  simp [parse_redirection, hop]

theorem parse_redirection_cons_not_op (tok : String) (rest : List String)
    (hop : is_redirect_operator tok = false) :
    parse_redirection (tok :: rest) =
      (tok :: (parse_redirection rest).1, (parse_redirection rest).2.1,
        (parse_redirection rest).2.2) := by
  cases rest <;> simp [parse_redirection, hop]

theorem parse_redirection_cleaned_no_ops :
    ∀ ps : List String, ∀ t ∈ (parse_redirection ps).1, is_redirect_operator t = false
  | [] => by simp [parse_redirection]
  | tok :: rest => by
    by_cases hop : is_redirect_operator tok = true
    · match rest with
      | [] =>
        simp [parse_redirection, hop]
      | filename :: rest2 =>
        intro t ht
        rw [parse_redirection_cons_op tok filename rest2 hop] at ht
        exact parse_redirection_cleaned_no_ops rest2 t ht
    · intro t ht
      rw [parse_redirection_cons_not_op tok rest (Bool.not_eq_true _ ▸ hop)] at ht
      rcases List.mem_cons.mp ht with rfl | ht
      · simpa using hop
      · exact parse_redirection_cleaned_no_ops rest t ht

theorem parse_redirection_no_ops_fixed (ps : List String)
    (h : ∀ t ∈ ps, is_redirect_operator t = false) :
    parse_redirection ps = (ps, [], []) := by
  induction ps with
  | nil => rfl
  | cons tok rest ih =>
    have h1 : is_redirect_operator tok = false := h tok (by simp)
    rw [parse_redirection_cons_not_op tok rest h1, ih (fun t ht => h t (by simp [ht]))]

/-- C7: parse_redirection is idempotent on already-cleaned word lists:
running it on the cleaned words of any word list returns those words
unchanged with empty stdout and stderr redirect lists. -/
theorem parse_redirection_idempotent (ws : List String) :
    parse_redirection (parse_redirection ws).1 = ((parse_redirection ws).1, [], []) :=
  parse_redirection_no_ops_fixed _ (parse_redirection_cleaned_no_ops ws)

theorem should_skip_segment_iff (op : Option String) (last : Int) :
    should_skip_segment op last = true ↔
      (op = some "&&" ∧ last ≠ 0) ∨ (op = some "||" ∧ last = 0) := by
  unfold should_skip_segment
  split_ifs with h1 h2 <;> simp_all

/-- C6: in the control-flow evaluator, a segment preceded by the operator
strings for and-then is executed iff the running status is zero, one
preceded by or-else iff the running status is non-zero, and any other
segment always; a skipped segment leaves the running status (and the
executed-segment trace) unchanged, and an executed segment's outcome
becomes the new running status. -/
theorem runner_short_circuit (exec : String → SegExec) (op : Option String)
    (seg : String) (rest : List (Option String × String)) (last : Int) :
    run_segments exec ((op, seg) :: rest) last =
      if (op = some "&&" ∧ last ≠ 0) ∨ (op = some "||" ∧ last = 0) then
        run_segments exec rest last
      else
        match exec seg with
        | .exit => (true, last, [seg])
        | .code rc =>
          let r := run_segments exec rest rc
          (r.1, r.2.1, seg :: r.2.2) := by
  by_cases h : (op = some "&&" ∧ last ≠ 0) ∨ (op = some "||" ∧ last = 0)
  · have hs : should_skip_segment op last = true := (should_skip_segment_iff op last).mpr h
    simp only [run_segments, execute_segment, hs, if_true, if_pos h]
  · have hs : should_skip_segment op last = false := by
      rw [← Bool.not_eq_true, should_skip_segment_iff]
      exact h
    simp only [run_segments, execute_segment, hs, Bool.false_eq_true, if_false, if_neg h]
    cases hE : exec seg <;> simp [hE]

/-- C4 counterexample: for the empty input line the tokenization yields
zero non-empty pipe-separated groups, yet parse_pipeline_into_segments
returns the empty pipeline, not a one-element pipeline holding a Stage
with empty command and args. -/
theorem empty_input_yields_no_stage_cex :
    parse_pipeline_into_segments "" = [] ∧
      parse_pipeline_into_segments "" ≠ [Segment.mk [] [] []] := by decide

/-- C4 amended: for every input line whose tokenization yields zero
non-empty pipe-separated groups, parse_pipeline_into_segments returns the
empty pipeline (zero stages), never a singleton empty Stage. -/
theorem zero_stage_pipeline_is_empty (s : String)
    (h : split_by_pipes (tokenize_command s) = []) :
    parse_pipeline_into_segments s = [] := by
  unfold parse_pipeline_into_segments build_pipeline_segments
  rw [h]
  rfl

/-- Witness for zero_stage_pipeline_is_empty at the input consisting of a
lone unquoted pipe character. -/
theorem zero_stage_pipeline_is_empty_witness :
    split_by_pipes (tokenize_command "|") = [] ∧ parse_pipeline_into_segments "|" = [] :=
  ⟨by decide, zero_stage_pipeline_is_empty "|" (by decide)⟩

/-- C9: every non-capture command whose parsed pipeline is empty drives
execute_shell into the indexing expression on the empty pipeline, raising
an unhandled IndexError instead of performing an empty-command no-op. -/
theorem empty_pipeline_index_error (s : String)
    (h : parse_pipeline_into_segments s = []) :
    execute_shell s false = ShellAction.indexError := by
  simp [execute_shell, h]

/-- Witness for empty_pipeline_index_error at the input consisting of a
lone unquoted pipe character. -/
theorem empty_pipeline_index_error_witness :
    parse_pipeline_into_segments "|" = [] ∧ execute_shell "|" false = ShellAction.indexError :=
  ⟨by decide, empty_pipeline_index_error "|" (by decide)⟩

/-- Projection selecting the file-open events of a trace, with their path
and mode. -/
def redirect_open_of_event : Event → Option (String × Mode)
  | .fopen p m => some (p, m)
  | _ => .none

theorem filterMap_open_prime (env : ExecEnv) (l : List Redir) :
    (l.flatMap (fun pm => [Event.fopen (env.expanduser pm.1) pm.2,
        Event.fclose (env.expanduser pm.1)])).filterMap redirect_open_of_event
      = l.map (fun pm => (env.expanduser pm.1, pm.2)) := by
  induction l with
  | nil => rfl
  | cons a l ih =>
    simp only [List.flatMap_cons, List.filterMap_append, ih, List.map_cons]
    rfl

/-- C5: for a redirect list of length k at least 1, the stage setup opens
exactly k files: prepare_redirect_specs opens and immediately closes each
of the first k-1 entries in order (with its mode), returns the last entry
(path expanded) as the active spec, and get_stdout_for_command at the last
stage position opens exactly that file and returns it as the stage's
output sink; the open events across both calls are exactly the k entries
in appearance order. -/
theorem redirects_prime_then_bind_active (env : ExecEnv) (rs : List Redir)
    (h : rs ≠ []) (n : Nat) (pipes : List (Nat × Nat)) :
    (prepare_redirect_specs env rs []).2.2 =
      rs.dropLast.flatMap (fun pm =>
        [Event.fopen (env.expanduser pm.1) pm.2, Event.fclose (env.expanduser pm.1)]) ∧
    (prepare_redirect_specs env rs []).1 =
      some (env.expanduser (rs.getLast h).1, (rs.getLast h).2) ∧
    (get_stdout_for_command (n - 1) n pipes (prepare_redirect_specs env rs []).1).1 =
      some (IOArg.file (env.expanduser (rs.getLast h).1) (rs.getLast h).2) ∧
    ((prepare_redirect_specs env rs []).2.2
        ++ (get_stdout_for_command (n - 1) n pipes
            (prepare_redirect_specs env rs []).1).2.1).filterMap redirect_open_of_event
      = rs.map (fun pm => (env.expanduser pm.1, pm.2)) ∧
    (((prepare_redirect_specs env rs []).2.2
        ++ (get_stdout_for_command (n - 1) n pipes
            (prepare_redirect_specs env rs []).1).2.1).filterMap
          redirect_open_of_event).length = rs.length := by
  have hlast : rs.getLast? = some (rs.getLast h) := List.getLast?_eq_getLast rs h
  have hspec : (prepare_redirect_specs env rs []).1 =
      some (env.expanduser (rs.getLast h).1, (rs.getLast h).2) := by
    simp [prepare_redirect_specs, get_active_redirect_spec, hlast]
  have hev : (prepare_redirect_specs env rs []).2.2 =
      rs.dropLast.flatMap (fun pm =>
        [Event.fopen (env.expanduser pm.1) pm.2, Event.fclose (env.expanduser pm.1)]) := by
    simp [prepare_redirect_specs, prime_earlier_redirects]
  have hbind : (get_stdout_for_command (n - 1) n pipes
      (prepare_redirect_specs env rs []).1).1 =
      some (IOArg.file (env.expanduser (rs.getLast h).1) (rs.getLast h).2) := by
    rw [hspec]
    simp [get_stdout_for_command]
  have hbindev : (get_stdout_for_command (n - 1) n pipes
      (prepare_redirect_specs env rs []).1).2.1 =
      [Event.fopen (env.expanduser (rs.getLast h).1) (rs.getLast h).2] := by
    rw [hspec]
    simp [get_stdout_for_command]
  have hopens : ((prepare_redirect_specs env rs []).2.2
      ++ (get_stdout_for_command (n - 1) n pipes
          (prepare_redirect_specs env rs []).1).2.1).filterMap redirect_open_of_event
      = rs.map (fun pm => (env.expanduser pm.1, pm.2)) := by
    rw [hev, hbindev, List.filterMap_append, filterMap_open_prime]
    have hsplit : rs.dropLast ++ [rs.getLast h] = rs := List.dropLast_append_getLast h
    calc rs.dropLast.map (fun pm => (env.expanduser pm.1, pm.2))
          ++ [Event.fopen (env.expanduser (rs.getLast h).1)
                (rs.getLast h).2].filterMap redirect_open_of_event
        = rs.dropLast.map (fun pm => (env.expanduser pm.1, pm.2))
            ++ [(env.expanduser (rs.getLast h).1, (rs.getLast h).2)] := by rfl
      _ = (rs.dropLast ++ [rs.getLast h]).map (fun pm => (env.expanduser pm.1, pm.2)) := by
            rw [List.map_append]
            rfl
      _ = rs.map (fun pm => (env.expanduser pm.1, pm.2)) := by rw [hsplit]
  refine ⟨hev, hspec, hbind, hopens, ?_⟩
  rw [hopens, List.length_map]

/-- Witness for redirects_prime_then_bind_active on a two-entry stdout
redirect list within a one-stage pipeline. -/
theorem redirects_prime_then_bind_active_witness :
    let env : ExecEnv :=
      ⟨fun s => s, fun _ _ => some 0, fun _ _ => 0, fun _ => (false, 0), fun _ => .none⟩
    let rs : List Redir := [("a.txt", Mode.w), ("b.txt", Mode.a)]
    (prepare_redirect_specs env rs []).2.2 =
      rs.dropLast.flatMap (fun pm =>
        [Event.fopen (env.expanduser pm.1) pm.2, Event.fclose (env.expanduser pm.1)]) ∧
    (prepare_redirect_specs env rs []).1 =
      some (env.expanduser (rs.getLast (by decide)).1, (rs.getLast (by decide)).2) ∧
    (get_stdout_for_command 0 1 [] (prepare_redirect_specs env rs []).1).1 =
      some (IOArg.file (env.expanduser (rs.getLast (by decide)).1)
        (rs.getLast (by decide)).2) ∧
    ((prepare_redirect_specs env rs []).2.2
        ++ (get_stdout_for_command 0 1 []
            (prepare_redirect_specs env rs []).1).2.1).filterMap redirect_open_of_event
      = rs.map (fun pm => (env.expanduser pm.1, pm.2)) ∧
    (((prepare_redirect_specs env rs []).2.2
        ++ (get_stdout_for_command 0 1 []
            (prepare_redirect_specs env rs []).1).2.1).filterMap
          redirect_open_of_event).length = rs.length :=
  redirects_prime_then_bind_active
    ⟨fun s => s, fun _ _ => some 0, fun _ _ => 0, fun _ => (false, 0), fun _ => .none⟩
    [("a.txt", Mode.w), ("b.txt", Mode.a)] (by decide) 1 []

theorem validate_pipeline_go_reject (p : List Segment)
    (h : ∃ seg ∈ p, seg.parts.head? = some Command.CD
        ∨ seg.parts.head? = some Command.EXIT) :
    (validate_pipeline_go p).1 = false ∧
      ∃ c, (validate_pipeline_go p).2 = [Event.printErr (c ++ ": cannot be used in pipeline")] := by
  induction p with
  | nil => simp at h
  | cons seg rest ih =>
    rcases h with ⟨s, hs, hcmd⟩
    rcases List.mem_cons.mp hs with rfl | hs
    · rcases hcmd with h1 | h1
      · rw [validate_pipeline_go, h1]
        dsimp only
        rw [if_pos (show is_cd_or_exit Command.CD = true by decide)]
        exact ⟨rfl, Command.CD, rfl⟩
      · rw [validate_pipeline_go, h1]
        dsimp only
        rw [if_pos (show is_cd_or_exit Command.EXIT = true by decide)]
        exact ⟨rfl, Command.EXIT, rfl⟩
    · cases hh : seg.parts.head? with
      | none =>
        rw [validate_pipeline_go, hh]
        exact ih ⟨s, hs, hcmd⟩
      | some cmd =>
        by_cases hc : is_cd_or_exit cmd = true
        · rw [validate_pipeline_go, hh]
          dsimp only
          rw [if_pos hc]
          exact ⟨rfl, cmd, rfl⟩
        · rw [validate_pipeline_go, hh]
          dsimp only
          rw [if_neg hc]
          exact ih ⟨s, hs, hcmd⟩

/-- C2: a pipeline with more than one stage in which some stage's command
is cd or exit is rejected: execute_pipeline prints a "cannot be used in
pipeline" diagnostic and returns status 1, and its trace contains no pipe
creation, no external spawn and no builtin task start. -/
theorem pipeline_rejects_cd_exit (env : ExecEnv) (p : List Segment)
    (hlen : 1 < p.length)
    (h : ∃ seg ∈ p, seg.parts.head? = some Command.CD
        ∨ seg.parts.head? = some Command.EXIT) :
    (execute_pipeline env p).1 = 1 ∧
    (∃ c, (execute_pipeline env p).2 = [Event.printErr (c ++ ": cannot be used in pipeline")]) ∧
    ∀ e ∈ (execute_pipeline env p).2,
      (∀ r w, e ≠ Event.createPipe r w) ∧ (∀ c, e ≠ Event.spawnExternal c) ∧
        (∀ c, e ≠ Event.startBuiltin c) := by
  have hne : p.isEmpty = false := by
    cases p with
    | nil => simp at hlen
    | cons a l => rfl
  have hval : validate_pipeline_commands p = validate_pipeline_go p := by
    unfold validate_pipeline_commands
    rw [if_neg (by omega)]
  obtain ⟨hfalse, c, hev⟩ := validate_pipeline_go_reject p h
  have hrun : execute_pipeline env p = (1, (validate_pipeline_go p).2) := by
    unfold execute_pipeline
    rw [hne, hval]
    simp only [hfalse, Bool.not_false, if_true, Bool.false_eq_true, if_false]
  refine ⟨by rw [hrun], ⟨c, by rw [hrun, hev]⟩, ?_⟩
  intro e he
  rw [hrun, hev] at he
  rcases List.mem_singleton.mp he with rfl
  exact ⟨fun r w => by simp, fun c2 => by simp, fun c2 => by simp⟩

/-- Witness for pipeline_rejects_cd_exit on the two-stage pipeline echo a
piped into cd x. -/
theorem pipeline_rejects_cd_exit_witness :
    let env : ExecEnv :=
      ⟨fun s => s, fun _ _ => some 0, fun _ _ => 0, fun _ => (false, 0), fun _ => .none⟩
    let p : List Segment := [⟨["echo", "a"], [], []⟩, ⟨["cd", "x"], [], []⟩]
    (execute_pipeline env p).1 = 1 ∧
    (∃ c, (execute_pipeline env p).2 = [Event.printErr (c ++ ": cannot be used in pipeline")]) ∧
    ∀ e ∈ (execute_pipeline env p).2,
      (∀ r w, e ≠ Event.createPipe r w) ∧ (∀ c, e ≠ Event.spawnExternal c) ∧
        (∀ c, e ≠ Event.startBuiltin c) :=
  pipeline_rejects_cd_exit
    ⟨fun s => s, fun _ _ => some 0, fun _ _ => 0, fun _ => (false, 0), fun _ => .none⟩
    [⟨["echo", "a"], [], []⟩, ⟨["cd", "x"], [], []⟩] (by decide)
    ⟨⟨["cd", "x"], [], []⟩, by simp, Or.inl (by decide)⟩

/-- Environment for the pipeline "false | echo hi": the external command
false exits with status 1, the builtin echo's thread stores status 0. -/
def envFalseEcho : ExecEnv :=
  ⟨fun s => s, fun c _ => if c = "false" then some 1 else .none,
   fun _ _ => 0, fun _ => (false, 0), fun _ => .none⟩

/-- C1: evaluation at the failing input "false | echo hi".  The last stage
is the builtin echo, whose thread records exit status 0, yet
execute_pipeline returns 1 — the status of the last external process
(false) — because get_pipeline_returncode prefers the processes list over
the threads list whenever any external stage was spawned.  This
contradicts the docstring of get_pipeline_returncode ("the return code of
the last command in the pipeline"). -/
theorem pipeline_status_is_last_external_not_last_stage :
    (execute_pipeline envFalseEcho [⟨["false"], [], []⟩, ⟨["echo", "hi"], [], []⟩]).1 = 1 ∧
    is_builtin "echo" = true ∧
    envFalseEcho.runBuiltin "echo" ["hi"] = 0 := by decide

/-- Environment for the pipeline "true | nosuchcmd": the external command
true exits with status 0; every other command name fails to spawn. -/
def envTrueNotFound : ExecEnv :=
  ⟨fun s => s, fun c _ => if c = "true" then some 0 else .none,
   fun _ _ => 0, fun _ => (false, 0), fun _ => .none⟩

/-- C3 counterexample: in the two-stage pipeline "true | nosuchcmd" whose
last stage is not found, the diagnostic is printed, yet execute_pipeline
returns 0 — the spawned first stage's status — not 127: the not-found
stage contributes no status at all to the pipeline result. -/
theorem notfound_last_stage_not_127 :
    (execute_pipeline envTrueNotFound [⟨["true"], [], []⟩, ⟨["nosuchcmd"], [], []⟩]).1 = 0 ∧
    (execute_pipeline envTrueNotFound [⟨["true"], [], []⟩, ⟨["nosuchcmd"], [], []⟩]).1 ≠ 127 ∧
    Event.printErr "nosuchcmd: command not found"
      ∈ (execute_pipeline envTrueNotFound [⟨["true"], [], []⟩, ⟨["nosuchcmd"], [], []⟩]).2 := by
  decide

/-- C3 amended: when an external stage's command cannot be found the shell
prints the "command not found" diagnostic; a single command that is not
found yields status 127; but in a multi-stage pipeline the failed stage is
dropped from the process list and contributes nothing to the result — a
two-stage pipeline whose first stage spawns with eventual status rcA and
whose last stage is not found returns rcA, while the already-spawned
sibling is not cancelled and is waited on (the full trace: pipe creation,
the spawn, the parent-side pipe closes, the diagnostic, and the wait). -/
theorem notfound_stage_dropped (env : ExecEnv) (a b : String)
    (argsA argsB : List String) (rcA : Int)
    (hA : env.spawn a (argsA.map env.expanduser) = some rcA)
    (hB : env.spawn b (argsB.map env.expanduser) = .none)
    (hba : is_builtin a = false) (hbb : is_builtin b = false)
    (hsingle : env.runSingleExternal ⟨b :: argsB, [], []⟩ = .none) :
    execute_pipeline env [⟨a :: argsA, [], []⟩, ⟨b :: argsB, [], []⟩] =
      (rcA, [Event.createPipe 0 1, Event.spawnExternal a, Event.closeFd 1,
             Event.printErr (b ++ ": command not found"), Event.closeFd 0,
             Event.waitProcess 0]) ∧
    execute_single_shell_command env ⟨b :: argsB, [], []⟩ =
      (.result false 127, [Event.printErr (b ++ ": command not found")]) := by
  have h1a : a ≠ Command.CD := fun e => by rw [e] at hba; exact absurd hba (by decide)
  have h2a : a ≠ Command.EXIT := fun e => by rw [e] at hba; exact absurd hba (by decide)
  have h1b : b ≠ Command.CD := fun e => by rw [e] at hbb; exact absurd hbb (by decide)
  have h2b : b ≠ Command.EXIT := fun e => by rw [e] at hbb; exact absurd hbb (by decide)
  constructor
  · simp [execute_pipeline, validate_pipeline_commands, validate_pipeline_go,
      is_cd_or_exit, create_pipeline_pipes, execute_stage, prepare_redirect_specs,
      prime_earlier_redirects, get_active_redirect_spec, get_stdin_for_command,
      get_stdout_for_command, get_stderr_for_command, fd_to_file_object,
      close_parent_pipe_fds, close_fd_step, get_pipeline_returncode, List.enum,
      List.enumFrom, hA, hB, hba, hbb, h1a, h2a, h1b, h2b, List.range_succ]
  · simp [execute_single_shell_command, hbb, hsingle]

/-- Witness for notfound_stage_dropped on "true | nosuchcmd" under
envTrueNotFound. -/
theorem notfound_stage_dropped_witness :
    execute_pipeline envTrueNotFound [⟨["true"], [], []⟩, ⟨["nosuchcmd"], [], []⟩] =
      (0, [Event.createPipe 0 1, Event.spawnExternal "true", Event.closeFd 1,
           Event.printErr "nosuchcmd: command not found", Event.closeFd 0,
           Event.waitProcess 0]) ∧
    execute_single_shell_command envTrueNotFound ⟨["nosuchcmd"], [], []⟩ =
      (.result false 127, [Event.printErr "nosuchcmd: command not found"]) :=
  notfound_stage_dropped envTrueNotFound "true" "nosuchcmd" [] [] 0
    (by decide) (by decide) (by decide) (by decide) (by decide)

/-- Is this event a builtin-thread join? -/
def isJoin : Event → Bool
  | .joinThread _ => true
  | _ => false

/-- Is this event a subprocess wait? -/
def isWait : Event → Bool
  | .waitProcess _ => true
  | _ => false

/-- A trace violates builtin-joins-before-process-waits ordering exactly
when a join event occurs somewhere after a wait event. -/
def join_after_wait : List Event → Bool
  | [] => false
  | e :: rest => (isWait e && rest.any isJoin) || join_after_wait rest

/-- A trace with no subprocess-wait event. -/
def wait_free (evs : List Event) : Prop := ∀ e ∈ evs, isWait e = false

/-- A trace with no thread-join event. -/
def join_free (evs : List Event) : Prop := ∀ e ∈ evs, isJoin e = false

theorem jaw_append_of_no_wait (A B : List Event) (hA : wait_free A) :
    join_after_wait (A ++ B) = join_after_wait B := by
  induction A with
  | nil => rfl
  | cons e A ih =>
    have he : isWait e = false := hA e (by simp)
    simp only [List.cons_append, join_after_wait, he, Bool.false_and, Bool.false_or]
    exact ih (fun x hx => hA x (by simp [hx]))

theorem jaw_of_no_join (B : List Event) (hB : join_free B) :
    join_after_wait B = false := by
  induction B with
  | nil => rfl
  | cons e B ih =>
    have hany : B.any isJoin = false := by
      rw [List.any_eq_false]
      intro x hx
      simp [hB x (by simp [hx])]
    simp only [join_after_wait, hany, Bool.and_false, Bool.false_or]
    exact ih (fun x hx => hB x (by simp [hx]))

theorem wait_free_append {A B : List Event} (hA : wait_free A) (hB : wait_free B) :
    wait_free (A ++ B) := by
  intro e he
  rcases List.mem_append.mp he with h | h
  · exact hA e h
  · exact hB e h

theorem wait_free_prime (env : ExecEnv) (rs : List Redir) :
    wait_free (prime_earlier_redirects env rs) := by
  intro e he
  simp only [prime_earlier_redirects, List.mem_flatMap, List.mem_cons,
    List.not_mem_nil, or_false] at he
  obtain ⟨pm, _, he⟩ := he
  rcases he with rfl | rfl <;> rfl

theorem wait_free_prep (env : ExecEnv) (r1 r2 : List Redir) :
    wait_free (prepare_redirect_specs env r1 r2).2.2 :=
  wait_free_append (wait_free_prime env r1) (wait_free_prime env r2)

theorem wait_free_stdout (i n : Nat) (pipes : List (Nat × Nat))
    (spec : Option (String × Mode)) :
    wait_free (get_stdout_for_command i n pipes spec).2.1 := by
  intro e he
  unfold get_stdout_for_command at he
  split at he
  · cases spec with
    | none => simp at he
    | some pm =>
      rcases List.mem_singleton.mp he with rfl
      rfl
  · simp at he

theorem wait_free_stderr (i n : Nat) (spec : Option (String × Mode)) :
    wait_free (get_stderr_for_command i n spec).2.1 := by
  intro e he
  unfold get_stderr_for_command at he
  split at he
  · cases spec with
    | none => simp at he
    | some pm =>
      rcases List.mem_singleton.mp he with rfl
      rfl
  · simp at he

theorem wait_free_close_step (st : List Nat × List Event) (fd : Option IOArg)
    (hw : wait_free st.2) : wait_free (close_fd_step st fd).2 := by
  unfold close_fd_step
  split
  · split
    · exact wait_free_append hw (fun e he => by
        rcases List.mem_singleton.mp he with rfl; rfl)
    · exact hw
  · exact hw

theorem wait_free_close_parent (a b : Option IOArg) (fds : List Nat) :
    wait_free (close_parent_pipe_fds a b fds).2 :=
  wait_free_close_step _ b (wait_free_close_step _ a (fun e he => by simp at he))

theorem execute_stage_wait_free (env : ExecEnv) (n : Nat)
    (pipes : List (Nat × Nat)) (st : PipeState) (is : Nat × Segment)
    (hw : wait_free st.events) :
    wait_free (execute_stage env n pipes st is).events := by
  rcases is with ⟨i, seg⟩
  cases hp : seg.parts with
  | nil => simpa [execute_stage, hp] using hw
  | cons cmd rest =>
    have hmid : wait_free (st.events
        ++ (prepare_redirect_specs env seg.stdout_redirs seg.stderr_redirs).2.2
        ++ (get_stdout_for_command i n pipes
            (prepare_redirect_specs env seg.stdout_redirs seg.stderr_redirs).1).2.1
        ++ (get_stderr_for_command i n
            (prepare_redirect_specs env seg.stdout_redirs seg.stderr_redirs).2.1).2.1) :=
      wait_free_append (wait_free_append (wait_free_append hw
        (wait_free_prep env _ _)) (wait_free_stdout _ _ _ _)) (wait_free_stderr _ _ _)
    simp only [execute_stage, hp]
    by_cases hb : is_builtin cmd = true
    · simp only [hb, if_true]
      exact wait_free_append hmid (fun e he => by
        rcases List.mem_singleton.mp he with rfl; rfl)
    · simp only [hb, Bool.false_eq_true, if_false]
      cases hsp : env.spawn cmd (rest.map env.expanduser) with
      | some rc =>
        simp only [hsp]
        exact wait_free_append (wait_free_append hmid (fun e he => by
          rcases List.mem_singleton.mp he with rfl; rfl))
          (wait_free_close_parent _ _ _)
      | none =>
        simp only [hsp]
        exact wait_free_append hmid (fun e he => by
          rcases List.mem_singleton.mp he with rfl; rfl)

theorem foldl_stage_wait_free (env : ExecEnv) (n : Nat) (pipes : List (Nat × Nat))
    (l : List (Nat × Segment)) (st : PipeState) (hw : wait_free st.events) :
    wait_free ((l.foldl (execute_stage env n pipes) st).events) := by
  induction l generalizing st with
  | nil => exact hw
  | cons x l ih => exact ih _ (execute_stage_wait_free env n pipes st x hw)

theorem validate_go_events_print_only (p : List Segment) :
    ∀ e ∈ (validate_pipeline_go p).2, ∃ m, e = Event.printErr m := by
  induction p with
  | nil => simp [validate_pipeline_go]
  | cons seg rest ih =>
    intro e he
    rw [validate_pipeline_go] at he
    cases hh : seg.parts.head? with
    | none =>
      rw [hh] at he
      exact ih e he
    | some cmd =>
      rw [hh] at he
      dsimp only at he
      by_cases hc : is_cd_or_exit cmd = true
      · rw [if_pos hc] at he
        rcases List.mem_singleton.mp he with rfl
        exact ⟨_, rfl⟩
      · rw [if_neg hc] at he
        exact ih e he

theorem validate_events_print_only (p : List Segment) :
    ∀ e ∈ (validate_pipeline_commands p).2, ∃ m, e = Event.printErr m := by
  unfold validate_pipeline_commands
  split
  · simp
  · exact validate_go_events_print_only p

/-- C8: in every trace of execute_pipeline, no builtin-thread join event
occurs after a subprocess wait event: all builtin tasks are joined before
the executor waits on any external subprocess. -/
theorem builtin_joins_before_process_waits (env : ExecEnv) (pipeline : List Segment) :
    join_after_wait (execute_pipeline env pipeline).2 = false := by
  simp only [execute_pipeline]
  split
  · rfl
  · split
    · exact jaw_of_no_join _ (fun e he => by
        obtain ⟨m, rfl⟩ := validate_events_print_only pipeline e he
        rfl)
    · have hst0 : wait_free ((validate_pipeline_commands pipeline).2
          ++ (create_pipeline_pipes pipeline.length).1.map
              (fun q => Event.createPipe q.1 q.2)) := by
        refine wait_free_append (fun e he => ?_) (fun e he => ?_)
        · obtain ⟨m, rfl⟩ := validate_events_print_only pipeline e he
          rfl
        · obtain ⟨q, _, rfl⟩ := List.mem_map.mp he
          rfl
      have hstw : wait_free ((pipeline.enum.foldl
          (execute_stage env pipeline.length (create_pipeline_pipes pipeline.length).1)
          { pipe_fds := (create_pipeline_pipes pipeline.length).2, processes := [],
            threads := [], redirect_files := [],
            events := (validate_pipeline_commands pipeline).2
              ++ (create_pipeline_pipes pipeline.length).1.map
                  (fun q => Event.createPipe q.1 q.2) }).events) :=
        foldl_stage_wait_free env pipeline.length (create_pipeline_pipes pipeline.length).1
          pipeline.enum _ hst0
      rw [show ∀ (e1 e2 e3 e4 e5 : List Event),
          e1 ++ e2 ++ e3 ++ e4 ++ e5 = (e1 ++ e2 ++ e3) ++ (e4 ++ e5) from
        fun e1 e2 e3 e4 e5 => by simp [List.append_assoc]]
      rw [jaw_append_of_no_wait]
      · apply jaw_of_no_join
        refine fun e he => ?_
        rcases List.mem_append.mp he with h | h
        · obtain ⟨i, _, rfl⟩ := List.mem_map.mp h
          rfl
        · obtain ⟨f, _, rfl⟩ := List.mem_map.mp h
          rfl
      · refine wait_free_append (wait_free_append hstw (fun e he => ?_)) (fun e he => ?_)
        · obtain ⟨f, _, rfl⟩ := List.mem_map.mp he
          rfl
        · obtain ⟨i, _, rfl⟩ := List.mem_map.mp he
          rfl

end Pynix
